import Mathlib

/-!
Verification of the Filament-Tracker core: CSV row store, spool-id
generation, totals aggregation, record validation and the startup schema
migration, shallowly embedded from `filament_tracker.py`.

Python strings are modelled as Lean `String` (a wrapper around
`List Char`); Python string primitives (`strip`, `lower`, `split`,
`startswith`, `isdigit`) are re-implemented below on the character list,
matching Python's semantics on the ASCII data this program handles.
Python floats are modelled as exact rationals `ℚ`: the program only adds,
subtracts and compares the parsed values, and every claim under study is
about which values flow where, not about rounding.
-/

namespace FilamentTracker

/-- Python `str.strip()`: drop leading and trailing whitespace. -/
def pyStrip (s : String) : String :=
  ⟨((s.data.dropWhile Char.isWhitespace).reverse.dropWhile Char.isWhitespace).reverse⟩

/-- Python `str.lower()` (ASCII). -/
def pyLower (s : String) : String :=
  ⟨s.data.map Char.toLower⟩

/-- Python `str.startswith(p)`. -/
def pyStartsWith (s p : String) : Bool :=
  p.data.isPrefixOf s.data

/-- Python `str.isdigit()` on ASCII: non-empty and all characters digits. -/
def pyIsDigit (s : String) : Bool :=
  !s.data.isEmpty && s.data.all Char.isDigit

/-- Split a character list at `'-'`, Python `str.split("-")` semantics:
the result is non-empty; empty segments are kept. -/
def splitDashList : List Char → List (List Char)
  | [] => [[]]
  | c :: cs =>
    if c = '-' then [] :: splitDashList cs
    else
      (c :: (splitDashList cs).headD []) :: (splitDashList cs).tail

/-- Python `s.split("-")`. -/
def pySplitDash (s : String) : List String :=
  (splitDashList s.data).map (fun l => ⟨l⟩)

/-- Python `s.split("-")[-1]` (split is never empty, so `[-1]` is total). -/
def lastTail (s : String) : String :=
  (pySplitDash s).getLastD ""

/-- Numeric value of a decimal digit character. -/
def charVal (c : Char) : Nat := c.toNat - 48

/-- Python `int(s)` on a string of decimal digits. -/
def parseNat (l : List Char) : Nat :=
  l.foldl (fun a c => 10 * a + charVal c) 0

/-- Least-significant-first decimal digits of `n`, with enough fuel
(structural recursion so that concrete values reduce in the kernel). -/
def natDigitsRevAux : Nat → Nat → List Char
  | 0, _ => []
  | fuel + 1, n => if n = 0 then [] else Nat.digitChar (n % 10) :: natDigitsRevAux fuel (n / 10)

/-- Decimal digit string of `n` (most-significant first), as Python's
`str(n)` / `"%d" % n` produce. -/
def natStr (n : Nat) : List Char :=
  if n = 0 then ['0'] else (natDigitsRevAux n n).reverse

/-- Python `f"{n:04d}"`: decimal digits of `n`, left-padded with `'0'` to
a minimum width of 4. -/
def pad4 (n : Nat) : String :=
  ⟨List.replicate (4 - (natStr n).length) '0' ++ natStr n⟩

/-- Parser for the decimal-literal fragment of Python `float()`:
optional sign, then digits with an optional fractional part (`"5"`,
`"5."`, `".5"`, `"-5.25"`). Exponents, `inf`/`nan`, surrounding
whitespace and underscores are outside the fragment this program's data
uses and are rejected. Returns the exact rational value. -/
def parseFloat? (s : String) : Option ℚ :=
  let go : List Char → Option ℚ := fun cs =>
    let ip := cs.takeWhile Char.isDigit
    let rest := cs.dropWhile Char.isDigit
    match rest with
    | [] => if ip.isEmpty then none else some ((parseNat ip : ℚ))
    | '.' :: fp =>
      if fp.all Char.isDigit && !(ip.isEmpty && fp.isEmpty) then
        some ((parseNat ip : ℚ) + (parseNat fp : ℚ) / (10 : ℚ) ^ fp.length)
      else none
    | _ => none
  match s.data with
  | '-' :: t => (go t).map (fun q => -q)
  | '+' :: t => go t
  | t => go t

/-- Embeds `safe_float` (filament_tracker.py:49-53): parse, and coerce any
parse failure to `0.0`. -/
def safe_float (s : String) : ℚ :=
  (parseFloat? s).getD 0

/-- The local `is_float` helper of both dialogs: does `float(s)` succeed? -/
def is_float (s : String) : Bool :=
  (parseFloat? s).isSome

/-- The suffix collection of `gen_spool_id`: for each id that
starts with the `SP-<date>-` text, take the part after the last `'-'`; keep it as a
number when it is all digits (filament_tracker.py:59-64). -/
def collectNums (pre : String) (ids : List String) : List Nat :=
  ids.filterMap (fun sid =>
    if pyStartsWith sid pre then
      (if pyIsDigit (lastTail sid) then some (parseNat (lastTail sid).data) else none)
    else none)

/-- Embeds `next_num = (max(nums) + 1) if nums else 1` (filament_tracker.py:65). -/
def nextNum (nums : List Nat) : Nat :=
  match nums with
  | [] => 1
  | _ :: _ => nums.foldl Nat.max 0 + 1

/-- Embeds `gen_spool_id` (filament_tracker.py:56-66). The current date
(`datetime.now().strftime("%Y%m%d")`) is passed in as `today`. -/
def gen_spool_id (today : String) (existing_ids : List String) : String :=
  let pre := "SP-" ++ today ++ "-"
  pre ++ pad4 (nextNum (collectNums pre existing_ids))

/-! ### Schemas and enumerations (filament_tracker.py:12-17) -/

def JOB_COLS : List String :=
  ["Date", "Name of Job", "Grams Potential", "Status", "Lost (g)", "Spool ID"]

def STATUSES : List String := ["init", "success", "failed", "pending"]

/-! ### Aggregator (App.update_totals, filament_tracker.py:330-367) -/

/-- One row of the jobs table, keyed by `JOB_COLS`. -/
structure Job where
  date : String
  name : String
  potential : String
  status : String
  lost : String
  spool : String
deriving DecidableEq, Repr

/-- One row of the spools table, keyed by `SPOOL_COLS`. -/
structure Spool where
  id : String
  material : String
  otherMaterial : String
  color : String
  otherColor : String
  size : String
  notes : String
  created : String
deriving DecidableEq, Repr

/-- The inner `passes` filter (filament_tracker.py:333-334): a job is
included iff the filter is the `"(All)"` sentinel or the job's
spool reference equals it. -/
def passes (filterSid : String) (r : Job) : Bool :=
  if filterSid = "(All)" then true else r.spool = filterSid

/-- The normalized status used by the aggregation loop
(filament_tracker.py:344): `(r.get("Status","") or "").strip().lower()`. -/
def jobStatus (r : Job) : String :=
  pyLower (pyStrip r.status)

/-- The totals loop of `App.update_totals` (filament_tracker.py:336-351),
returning `(total_potential, total_consumed, total_lost)`. -/
def update_totals (jobs : List Job) (filterSid : String) : ℚ × ℚ × ℚ :=
  jobs.foldl
    (fun acc r =>
      if passes filterSid r then
        let potential := safe_float r.potential
        let status := jobStatus r
        let lost := safe_float r.lost
        (acc.1 + potential,
         acc.2.1 + (if status = "success" then potential
                    else if status = "failed" then lost else 0),
         acc.2.2 + (if status = "failed" then lost else 0))
      else acc)
    (0, 0, 0)

/-- Spool-size lookup of `App.update_totals` (filament_tracker.py:359-363):
the first spool whose id equals the filter, `0.0` when none matches. -/
def spool_size_for (spools : List Spool) (filterSid : String) : ℚ :=
  match spools.find? (fun s => s.id = filterSid) with
  | some s => safe_float s.size
  | none => 0

/-- The remaining-filament branch of `App.update_totals`
(filament_tracker.py:357-367): `none` models the `"(select a spool)"`
placeholder shown when the filter is `"(All)"`. -/
def update_remaining (jobs : List Job) (spools : List Spool) (filterSid : String) :
    Option ℚ :=
  if filterSid = "(All)" then none
  else some (max (spool_size_for spools filterSid - (update_totals jobs filterSid).2.1) 0)

/-! ### Validation dialogs (JobDialog.ok, SpoolDialog.ok) -/

/-- The five distinct `messagebox.showerror` outcomes of `JobDialog.ok`
(filament_tracker.py:433-449). -/
inductive JobErr where
  | missingFields
  | badPotential
  | badStatus
  | missingLost
  | badLost
deriving DecidableEq, Repr

/-- Embeds `JobDialog.ok` (filament_tracker.py:421-461): validate the six entry
fields in source order, first failure winning; on success return the
committed record. -/
def jobOk (date name potential status lost spool : String) : Except JobErr Job :=
  if pyStrip date = "" || pyStrip name = "" then .error .missingFields
  else if pyStrip potential ≠ "" && !is_float (pyStrip potential) then
    .error .badPotential
  else if !(STATUSES.contains (pyLower (pyStrip status))) then .error .badStatus
  else if pyLower (pyStrip status) = "failed" then
    if pyStrip lost = "" || !is_float (pyStrip lost) then .error .missingLost
    else .ok ⟨pyStrip date, pyStrip name, pyStrip potential,
      pyLower (pyStrip status), pyStrip lost, pyStrip spool⟩
  else
    if pyStrip lost ≠ "" && !is_float (pyStrip lost) then .error .badLost
    else .ok ⟨pyStrip date, pyStrip name, pyStrip potential,
      pyLower (pyStrip status), "", pyStrip spool⟩

/-- The four distinct `messagebox.showerror` outcomes of `SpoolDialog.ok`
(filament_tracker.py:575-586). -/
inductive SpoolErr where
  | missingId
  | badSize
  | missingOtherMaterial
  | missingOtherColor
deriving DecidableEq, Repr

/-- Embeds `SpoolDialog.ok` (filament_tracker.py:561-600): validate the entry
fields in source order; on success return the committed record, with the
two free-text "other" fields forced to `""` unless the corresponding
enum is `"Other"`. -/
def spoolOk (sid mat other_mat col other size notes created : String) :
    Except SpoolErr Spool :=
  if pyStrip sid = "" then .error .missingId
  else if pyStrip size = "" || !is_float (pyStrip size) then .error .badSize
  else if pyStrip mat = "Other" && pyStrip other_mat = "" then
    .error .missingOtherMaterial
  else if pyStrip col = "Other" && pyStrip other = "" then
    .error .missingOtherColor
  else .ok ⟨pyStrip sid, pyStrip mat,
    (if pyStrip mat = "Other" then pyStrip other_mat else ""),
    pyStrip col, (if pyStrip col = "Other" then pyStrip other else ""),
    pyStrip size, pyStrip notes, pyStrip created⟩

/-! ### Row store and schema migration (read_rows/write_rows and the
`__main__` migration block) -/

/-- A CSV file, abstracted to its parsed form: the header line and the
field lists of the data rows. Serialization is a deterministic function
of this data, so equal values denote byte-identical files. -/
structure CsvFile where
  header : List String
  rows : List (List String)
deriving DecidableEq, Repr

/-- In-memory field values are `Option String`: `none` models the Python
`None` that `csv.DictReader` stores (via `restval = None`) for a column
of the header that a short data row does not cover; `some s` models the
string `s`. `dictLookup keys vals c` is `dict.get(c, "")` on the dict
built by pairing `keys` with `vals` (padded with `None`, later duplicate
keys overwriting earlier ones): the stored value — possibly `none` —
when `c` is a key, and the *string* default `""` when it is not. -/
def dictLookup (keys : List String) (vals : List (Option String)) (c : String) :
    Option String :=
  if c ∈ keys then
    (((keys.zip (vals ++ List.replicate (keys.length - vals.length) none)).filter
      (fun p => p.1 = c)).getLastD (c, none)).2
  else some ""

/-- Embeds `read_rows` (filament_tracker.py:27-40) on an existing file: each data
row becomes the record `{col: r.get(col, "") for col in header}` — the
string cell where the row covers the column, `none` (DictReader
restval) where a short row does not, `""` where the file header lacks
the column. (The two back-compat branches at lines 33-38 assign `""`
only where the lookup already yields `""`, so they are no-ops.) -/
def read_rows (schema : List String) (f : CsvFile) : List (List (Option String)) :=
  f.rows.map (fun row => schema.map (fun c => dictLookup f.header (row.map some) c))

/-- Embeds `write_rows` (filament_tracker.py:42-47): emit the schema as header
and, per record, exactly the schema columns in order
(`{c: r.get(c, "") for c in header}`); the csv writer serializes a
`None` value as the empty cell, hence the `Option.getD ""`. -/
def write_rows (schema : List String) (recs : List (List (Option String))) : CsvFile :=
  { header := schema,
    rows := recs.map (fun rec => schema.map (fun c => (dictLookup schema rec c).getD "")) }

/-! ### Decimal-digit lemmas -/

theorem charVal_digitChar {d : ℕ} (hd : d < 10) : charVal (Nat.digitChar d) = d := by
  interval_cases d <;> rfl

theorem digitChar_isDigit {d : ℕ} (hd : d < 10) : (Nat.digitChar d).isDigit = true := by
  interval_cases d <;> rfl

theorem digit_ne_dash {c : Char} (h : c.isDigit = true) : c ≠ '-' := by
  intro he
  rw [he] at h
  exact absurd h (by decide)

theorem parseNat_zeros_append (k : ℕ) (l : List Char) :
    parseNat (List.replicate k '0' ++ l) = parseNat l := by
  induction k with
  | zero => rfl
  | succ k ih =>
    have h0 : (10 * 0 + charVal '0') = 0 := rfl
    simpa [parseNat, List.replicate_succ, h0] using ih

theorem foldr_digits_eq_ofDigits (ds : List ℕ) (hd : ∀ d ∈ ds, d < 10) :
    List.foldr (fun d a => 10 * a + charVal (Nat.digitChar d)) 0 ds = Nat.ofDigits 10 ds := by
  induction ds with
  | nil => rfl
  | cons d t ih =>
    have hdlt : d < 10 := hd d (List.mem_cons_self d t)
    have ht : ∀ x ∈ t, x < 10 := fun x hx => hd x (List.mem_cons_of_mem d hx)
    simp only [List.foldr_cons, ih ht, Nat.ofDigits_cons, charVal_digitChar hdlt]
    omega

theorem natDigitsRevAux_eq {fuel n : ℕ} (h : n ≤ fuel) :
    natDigitsRevAux fuel n = (Nat.digits 10 n).map Nat.digitChar := by
  induction fuel generalizing n with
  | zero =>
    interval_cases n
    simp [natDigitsRevAux]
  | succ fuel ih =>
    by_cases hn : n = 0
    · subst hn; simp [natDigitsRevAux]
    · have hpos : 0 < n := Nat.pos_of_ne_zero hn
      have hdiv : n / 10 < n := Nat.div_lt_self hpos (by norm_num)
      rw [show natDigitsRevAux (fuel + 1) n
          = Nat.digitChar (n % 10) :: natDigitsRevAux fuel (n / 10) from by
            simp [natDigitsRevAux, hn]]
      rw [ih (by omega), Nat.digits_def' (by norm_num : (1 : ℕ) < 10) hpos]
      rfl

theorem natStr_eq (n : ℕ) :
    natStr n = if n = 0 then ['0'] else ((Nat.digits 10 n).map Nat.digitChar).reverse := by
  unfold natStr
  by_cases h : n = 0
  · simp [h]
  · simp only [if_neg h, natDigitsRevAux_eq (le_refl n)]

theorem parseNat_natStr (n : ℕ) : parseNat (natStr n) = n := by
  by_cases h : n = 0
  · subst h; rfl
  · have hd : ∀ d ∈ Nat.digits 10 n, d < 10 :=
      fun d hdm => Nat.digits_lt_base (by norm_num) hdm
    rw [natStr_eq]
    unfold parseNat
    rw [if_neg h, List.foldl_reverse, List.foldr_map]
    exact (foldr_digits_eq_ofDigits _ hd).trans (Nat.ofDigits_digits 10 n)

theorem natStr_all_digit (n : ℕ) : ∀ c ∈ natStr n, c.isDigit = true := by
  intro c hc
  rw [natStr_eq] at hc
  by_cases h : n = 0
  · rw [if_pos h] at hc
    simp only [List.mem_singleton] at hc
    subst hc; rfl
  · rw [if_neg h, List.mem_reverse, List.mem_map] at hc
    obtain ⟨d, hdm, rfl⟩ := hc
    exact digitChar_isDigit (Nat.digits_lt_base (by norm_num) hdm)

theorem natStr_ne_nil (n : ℕ) : natStr n ≠ [] := by
  rw [natStr_eq]
  by_cases h : n = 0
  · rw [if_pos h]; simp
  · rw [if_neg h]
    simp only [ne_eq, List.reverse_eq_nil_iff, List.map_eq_nil_iff]
    exact Nat.digits_ne_nil_iff_ne_zero.mpr h

theorem natStr_length_le_four {n : ℕ} (h : n < 10000) : (natStr n).length ≤ 4 := by
  rw [natStr_eq]
  by_cases h0 : n = 0
  · rw [if_pos h0]; simp
  · rw [if_neg h0]
    simp only [List.length_reverse, List.length_map]
    by_contra hlen
    push_neg at hlen
    have hle : 10 ^ (Nat.digits 10 n).length ≤ 10 * n :=
      Nat.base_pow_length_digits_le 10 n (by norm_num) h0
    have : (10 : ℕ) ^ 5 ≤ 10 ^ (Nat.digits 10 n).length :=
      Nat.pow_le_pow_right (by norm_num) hlen
    omega

theorem natStr_length_ge_five {n : ℕ} (h : 10000 ≤ n) : 5 ≤ (natStr n).length := by
  have h0 : n ≠ 0 := by omega
  rw [natStr_eq, if_neg h0]
  simp only [List.length_reverse, List.length_map]
  have hlt : n < 10 ^ (Nat.digits 10 n).length :=
    Nat.lt_base_pow_length_digits (by norm_num)
  by_contra hlen
  push_neg at hlen
  have : (10 : ℕ) ^ (Nat.digits 10 n).length ≤ 10 ^ 4 :=
    Nat.pow_le_pow_right (by norm_num) (by omega)
  omega

theorem pad4_data (n : ℕ) :
    (pad4 n).data = List.replicate (4 - (natStr n).length) '0' ++ natStr n := rfl

theorem pad4_all_digit (n : ℕ) : ∀ c ∈ (pad4 n).data, c.isDigit = true := by
  intro c hc
  rw [pad4_data, List.mem_append] at hc
  rcases hc with hc | hc
  · rw [List.eq_of_mem_replicate hc]; rfl
  · exact natStr_all_digit n c hc

theorem pad4_no_dash (n : ℕ) : ∀ c ∈ (pad4 n).data, c ≠ '-' :=
  fun c hc => digit_ne_dash (pad4_all_digit n c hc)

theorem pad4_data_ne_nil (n : ℕ) : (pad4 n).data ≠ [] := by
  rw [pad4_data]
  simp [natStr_ne_nil n]

theorem parseNat_pad4 (n : ℕ) : parseNat (pad4 n).data = n := by
  rw [pad4_data, parseNat_zeros_append, parseNat_natStr]

theorem pyIsDigit_pad4 (n : ℕ) : pyIsDigit (pad4 n) = true := by
  unfold pyIsDigit
  rw [Bool.and_eq_true]
  constructor
  · cases h : (pad4 n).data with
    | nil => exact absurd h (pad4_data_ne_nil n)
    | cons c t => simp [h]
  · rw [List.all_eq_true]
    exact pad4_all_digit n

theorem pad4_length_small {n : ℕ} (h : n < 10000) : (pad4 n).data.length = 4 := by
  rw [pad4_data]
  have h1 : (natStr n).length ≤ 4 := natStr_length_le_four h
  simp only [List.length_append, List.length_replicate]
  omega

theorem pad4_eq_natStr_of_large {n : ℕ} (h : 10000 ≤ n) : (pad4 n).data = natStr n := by
  rw [pad4_data]
  have h1 : 5 ≤ (natStr n).length := natStr_length_ge_five h
  have : 4 - (natStr n).length = 0 := by omega
  rw [this]
  rfl

/-! ### Dash-splitting lemmas -/

theorem splitDashList_cons_dash (cs : List Char) :
    splitDashList ('-' :: cs) = [] :: splitDashList cs := by
  simp [splitDashList]

theorem splitDashList_cons_ne {c : Char} (hc : c ≠ '-') (cs : List Char) :
    splitDashList (c :: cs) =
      (c :: (splitDashList cs).headD []) :: (splitDashList cs).tail := by
  simp [splitDashList, hc]

theorem splitDashList_ne_nil (l : List Char) : splitDashList l ≠ [] := by
  cases l with
  | nil => simp [splitDashList]
  | cons c cs =>
    by_cases h : c = '-'
    · subst h; rw [splitDashList_cons_dash]; simp
    · rw [splitDashList_cons_ne h]; simp

theorem splitDashList_no_dash {l : List Char} (h : ∀ c ∈ l, c ≠ '-') :
    splitDashList l = [l] := by
  induction l with
  | nil => rfl
  | cons c cs ih =>
    have hc : c ≠ '-' := h c (List.mem_cons_self c cs)
    have hcs : ∀ x ∈ cs, x ≠ '-' := fun x hx => h x (List.mem_cons_of_mem c hx)
    rw [splitDashList_cons_ne hc, ih hcs]
    rfl

theorem getLastD_of_ne_nil {α : Type} {l : List α} (h : l ≠ []) (a b : α) :
    l.getLastD a = l.getLastD b := by
  cases l with
  | nil => exact absurd rfl h
  | cons x t => rw [List.getLastD_cons, List.getLastD_cons]

theorem two_le_splitDashList_length {l : List Char} (h : '-' ∈ l) :
    2 ≤ (splitDashList l).length := by
  induction l with
  | nil => simp at h
  | cons c cs ih =>
    by_cases hc : c = '-'
    · subst hc
      rw [splitDashList_cons_dash]
      have h1 : 1 ≤ (splitDashList cs).length :=
        List.length_pos.mpr (splitDashList_ne_nil cs)
      simp only [List.length_cons]
      omega
    · have hm : '-' ∈ cs := by
        rcases List.mem_cons.mp h with h1 | h1
        · exact absurd h1.symm hc
        · exact h1
      have h2 := ih hm
      rw [splitDashList_cons_ne hc]
      simp only [List.length_cons, List.length_tail]
      omega

theorem splitDashList_append_dash_getLastD {ys : List Char} (hy : ∀ c ∈ ys, c ≠ '-') :
    ∀ xs : List Char, (splitDashList (xs ++ '-' :: ys)).getLastD [] = ys := by
  intro xs
  induction xs with
  | nil =>
    show (splitDashList ('-' :: ys)).getLastD [] = ys
    rw [splitDashList_cons_dash, List.getLastD_cons, splitDashList_no_dash hy]
    rfl
  | cons x xs ih =>
    show (splitDashList (x :: (xs ++ '-' :: ys))).getLastD [] = ys
    by_cases hx : x = '-'
    · subst hx
      rw [splitDashList_cons_dash, List.getLastD_cons,
        getLastD_of_ne_nil (splitDashList_ne_nil _) [] []]
      exact ih
    · rw [splitDashList_cons_ne hx]
      have h2 : 2 ≤ (splitDashList (xs ++ '-' :: ys)).length :=
        two_le_splitDashList_length (by simp)
      cases hcs : splitDashList (xs ++ '-' :: ys) with
      | nil => exact absurd hcs (splitDashList_ne_nil _)
      | cons h t =>
        rw [hcs] at h2 ih
        cases t with
        | nil => simp at h2
        | cons a s =>
          rw [List.getLastD_cons] at ih ⊢
          simp only [List.tail_cons, List.getLastD_cons] at ih ⊢
          exact ih

theorem splitDashList_no_dash_append {xs : List Char} (hx : ∀ c ∈ xs, c ≠ '-')
    (ys : List Char) : splitDashList (xs ++ '-' :: ys) = xs :: splitDashList ys := by
  induction xs with
  | nil =>
    show splitDashList ('-' :: ys) = [] :: splitDashList ys
    exact splitDashList_cons_dash ys
  | cons x t ih =>
    have hxd : x ≠ '-' := hx x (List.mem_cons_self x t)
    have ht : ∀ c ∈ t, c ≠ '-' := fun c hc => hx c (List.mem_cons_of_mem x hc)
    show splitDashList (x :: (t ++ '-' :: ys)) = (x :: t) :: splitDashList ys
    rw [splitDashList_cons_ne hxd, ih ht]
    rfl

theorem getLastD_map {α β : Type} (f : α → β) (l : List α) (d : α) :
    (l.map f).getLastD (f d) = f (l.getLastD d) := by
  induction l generalizing d with
  | nil => rfl
  | cons x t ih => simp only [List.map_cons, List.getLastD_cons, ih]

/-! ### `gen_spool_id` lemmas -/

theorem lastTail_parts (a t : String) (ht : ∀ c ∈ t.data, c ≠ '-') :
    lastTail ⟨a.data ++ '-' :: t.data⟩ = t := by
  unfold lastTail pySplitDash
  show ((splitDashList (a.data ++ '-' :: t.data)).map
      (fun l => (⟨l⟩ : String))).getLastD ((fun l => (⟨l⟩ : String)) []) = t
  rw [getLastD_map, splitDashList_append_dash_getLastD ht a.data]

theorem data_gen_parts (today : String) (k : ℕ) :
    ("SP-" ++ today ++ "-" ++ pad4 k).data
      = ("SP-" ++ today).data ++ '-' :: (pad4 k).data := by
  simp [String.data_append, List.append_assoc]

theorem lastTail_gen (today : String) (k : ℕ) :
    lastTail ("SP-" ++ today ++ "-" ++ pad4 k) = pad4 k := by
  have h := congrArg (fun l => (⟨l⟩ : String)) (data_gen_parts today k)
  simp only at h
  rw [show (⟨("SP-" ++ today ++ "-" ++ pad4 k).data⟩ : String)
      = "SP-" ++ today ++ "-" ++ pad4 k from rfl] at h
  rw [h]
  exact lastTail_parts ("SP-" ++ today) (pad4 k) (pad4_no_dash k)

theorem le_foldl_max_init (l : List ℕ) (a : ℕ) : a ≤ l.foldl Nat.max a := by
  induction l generalizing a with
  | nil => simp
  | cons b t ih =>
    simp only [List.foldl_cons]
    exact le_trans (Nat.le_max_left a b) (ih (Nat.max a b))

theorem le_foldl_max {l : List ℕ} {x : ℕ} (hx : x ∈ l) (a : ℕ) :
    x ≤ l.foldl Nat.max a := by
  induction l generalizing a with
  | nil => simp at hx
  | cons b t ih =>
    simp only [List.foldl_cons]
    rcases List.mem_cons.mp hx with h | h
    · subst h
      exact le_trans (Nat.le_max_right a x) (le_foldl_max_init t _)
    · exact ih h _

theorem foldl_max_le {l : List ℕ} {b : ℕ} (h : ∀ x ∈ l, x ≤ b) :
    ∀ {a : ℕ}, a ≤ b → l.foldl Nat.max a ≤ b := by
  induction l with
  | nil => intro a ha; simpa using ha
  | cons c t ih =>
    intro a ha
    simp only [List.foldl_cons]
    exact ih (fun x hx => h x (List.mem_cons_of_mem c hx))
      (Nat.max_le.mpr ⟨ha, h c (List.mem_cons_self c t)⟩)

theorem isPrefixOf_append (p t : List Char) : p.isPrefixOf (p ++ t) = true := by
  induction p with
  | nil => simp [List.isPrefixOf]
  | cons c cs ih => simp [List.isPrefixOf, ih]

theorem pyStartsWith_append (p t : String) : pyStartsWith (p ++ t) p = true := by
  unfold pyStartsWith
  rw [String.data_append]
  exact isPrefixOf_append p.data t.data

theorem mem_collectNums {pre sid : String} {ids : List String}
    (hm : sid ∈ ids) (h1 : pyStartsWith sid pre = true)
    (h2 : pyIsDigit (lastTail sid) = true) :
    parseNat (lastTail sid).data ∈ collectNums pre ids := by
  unfold collectNums
  rw [List.mem_filterMap]
  refine ⟨sid, hm, ?_⟩
  rw [if_pos h1, if_pos h2]

/-- The generated id is always fresh: it never occurs in `existing_ids`. -/
theorem gen_spool_id_not_mem_core (today : String) (ids : List String) :
    gen_spool_id today ids ∉ ids := by
  intro hmem
  have hstart : pyStartsWith (gen_spool_id today ids) ("SP-" ++ today ++ "-") = true :=
    pyStartsWith_append _ _
  have htail : lastTail (gen_spool_id today ids)
      = pad4 (nextNum (collectNums ("SP-" ++ today ++ "-") ids)) :=
    lastTail_gen today _
  have hdig : pyIsDigit (lastTail (gen_spool_id today ids)) = true := by
    rw [htail]; exact pyIsDigit_pad4 _
  have hmemn := mem_collectNums hmem hstart hdig
  rw [htail, parseNat_pad4] at hmemn
  cases hn : collectNums ("SP-" ++ today ++ "-") ids with
  | nil => rw [hn] at hmemn; exact absurd hmemn (List.not_mem_nil _)
  | cons a t =>
    rw [hn] at hmemn
    have h1 : nextNum (a :: t) ≤ (a :: t).foldl Nat.max 0 := le_foldl_max hmemn 0
    have h2 : nextNum (a :: t) = (a :: t).foldl Nat.max 0 + 1 := rfl
    omega

/-- Ids that do not carry the current date marker `SP-<date>-` never influence
the collected numbers. -/
theorem collectNums_filter_startsWith (pre : String) (ids : List String) :
    collectNums pre (ids.filter (fun sid => pyStartsWith sid pre)) = collectNums pre ids := by
  induction ids with
  | nil => rfl
  | cons sid t ih =>
    by_cases h : pyStartsWith sid pre = true
    · rw [List.filter_cons_of_pos (by simpa using h)]
      unfold collectNums at ih ⊢
      rw [List.filterMap_cons, List.filterMap_cons, ih]
    · have hb : pyStartsWith sid pre = false := Bool.eq_false_iff.mpr h
      rw [List.filter_cons_of_neg (by simp [hb])]
      unfold collectNums at ih ⊢
      rw [List.filterMap_cons, ih]
      simp [hb]

theorem bool_ne_true {b : Bool} (h : ¬(b = true)) : b = false := by
  cases b
  · rfl
  · exact absurd rfl h

/-! ### Spec-side per-job contributions (for the aggregator claims) -/

/-- Modelled from the spec's aggregation rules, for comparison with
`update_totals`: what one included job adds to `total_consumed`
(its potential on `success`, its lost grams on `failed`, nothing
otherwise). -/
def specConsumedContrib (r : Job) : ℚ :=
  if jobStatus r = "success" then safe_float r.potential
  else if jobStatus r = "failed" then safe_float r.lost else 0

/-- Modelled from the spec's aggregation rules, for comparison with
`update_totals`: what one included job adds to `total_lost`
(its lost grams on `failed`, nothing otherwise). -/
def specLostContrib (r : Job) : ℚ :=
  if jobStatus r = "failed" then safe_float r.lost else 0

theorem update_totals_foldl_aux (fs : String) (jobs : List Job) :
    ∀ acc : ℚ × ℚ × ℚ,
      jobs.foldl
        (fun acc r =>
          if passes fs r then
            let potential := safe_float r.potential
            let status := jobStatus r
            let lost := safe_float r.lost
            (acc.1 + potential,
             acc.2.1 + (if status = "success" then potential
                        else if status = "failed" then lost else 0),
             acc.2.2 + (if status = "failed" then lost else 0))
          else acc) acc
      = (acc.1 + ((jobs.filter (passes fs)).map (fun r => safe_float r.potential)).sum,
         acc.2.1 + ((jobs.filter (passes fs)).map specConsumedContrib).sum,
         acc.2.2 + ((jobs.filter (passes fs)).map specLostContrib).sum) := by
  induction jobs with
  | nil => intro acc; simp
  | cons r t ih =>
    intro acc
    rw [List.foldl_cons, ih]
    by_cases hp : passes fs r = true
    · rw [List.filter_cons_of_pos hp]
      simp only [if_pos hp, List.map_cons, List.sum_cons, specConsumedContrib,
        specLostContrib]
      refine Prod.ext ?_ (Prod.ext ?_ ?_) <;> simp <;> ring
    · rw [List.filter_cons_of_neg hp]
      simp only [if_neg hp]

/-! ## Claim theorems -/

/-- C1: the function `update_totals` computes its three totals over exactly the jobs
passing the spool filter (`"(All)"` sentinel or matching spool
reference): each included job adds its parsed potential to
`total_potential`; a `success` job additionally adds its potential to
`total_consumed`; a `failed` job adds its parsed lost grams to both
`total_lost` and `total_consumed`; `init`/`pending` jobs contribute
nothing to consumed or lost. -/
theorem update_totals_spec (jobs : List Job) (filterSid : String) :
    update_totals jobs filterSid
      = (((jobs.filter (passes filterSid)).map (fun r => safe_float r.potential)).sum,
         ((jobs.filter (passes filterSid)).map specConsumedContrib).sum,
         ((jobs.filter (passes filterSid)).map specLostContrib).sum)
    ∧ (∀ r : Job, passes filterSid r = true ↔ (filterSid = "(All)" ∨ r.spool = filterSid))
    ∧ (∀ r : Job, jobStatus r = "init" ∨ jobStatus r = "pending" →
        specConsumedContrib r = 0 ∧ specLostContrib r = 0) := by
  refine ⟨?_, ?_, ?_⟩
  · show jobs.foldl _ (0, 0, 0) = _
    rw [update_totals_foldl_aux]
    norm_num
  · intro r
    unfold passes
    by_cases h : filterSid = "(All)"
    · simp [h]
    · simp [h]
  · intro r h
    have hs : jobStatus r ≠ "success" ∧ jobStatus r ≠ "failed" := by
      rcases h with h | h <;> rw [h] <;> exact ⟨by decide, by decide⟩
    unfold specConsumedContrib specLostContrib
    rw [if_neg hs.1, if_neg hs.2]
    exact ⟨rfl, rfl⟩

/-- C1 witness: on the spec's example table the totals are
`(150, 110, 10)`, and a concrete `init` job contributes nothing to
consumed or lost. -/
theorem update_totals_spec_witness :
    (jobStatus ⟨"d", "j", "5", "init", "", ""⟩ = "init"
      ∨ jobStatus ⟨"d", "j", "5", "init", "", ""⟩ = "pending")
    ∧ (specConsumedContrib ⟨"d", "j", "5", "init", "", ""⟩ = 0
      ∧ specLostContrib ⟨"d", "j", "5", "init", "", ""⟩ = 0)
    ∧ update_totals
        [⟨"d", "a", "100", "success", "", ""⟩, ⟨"d", "b", "50", "failed", "10", ""⟩]
        "(All)" = (150, 110, 10) := by
  refine ⟨Or.inl (by decide),
    (update_totals_spec [] "x").2.2 _ (Or.inl (by decide)), ?_⟩
  rw [(update_totals_spec
    [⟨"d", "a", "100", "success", "", ""⟩, ⟨"d", "b", "50", "failed", "10", ""⟩]
    "(All)").1]
  have h1 : safe_float "100" = 100 := by decide
  have h2 : safe_float "50" = 50 := by decide
  have h3 : safe_float "10" = 10 := by decide
  have hs1 : jobStatus ⟨"d", "a", "100", "success", "", ""⟩ = "success" := by decide
  have hs2 : jobStatus ⟨"d", "b", "50", "failed", "10", ""⟩ = "failed" := by decide
  have hp : ∀ r : Job, passes "(All)" r = true := fun r => rfl
  simp [List.filter_cons, hp, specConsumedContrib, specLostContrib, hs1, hs2, h1, h2, h3]
  norm_num

/-- C2: with a specific (non-`"(All)"`) filter, the remaining value is
`max(size - total_consumed, 0)` — never negative — where `size` is the
parsed size of the first matching spool, `0` when none matches; with the
`"(All)"` sentinel no remaining value is computed. -/
theorem update_remaining_spec (jobs : List Job) (spools : List Spool)
    (filterSid : String) (h : filterSid ≠ "(All)") :
    update_remaining jobs spools filterSid
      = some (max (spool_size_for spools filterSid
          - (update_totals jobs filterSid).2.1) 0)
    ∧ (∀ q : ℚ, update_remaining jobs spools filterSid = some q → 0 ≤ q)
    ∧ (∀ s : Spool, spools.find? (fun s => s.id = filterSid) = some s →
        spool_size_for spools filterSid = safe_float s.size)
    ∧ (spools.find? (fun s => s.id = filterSid) = none →
        spool_size_for spools filterSid = 0)
    ∧ update_remaining jobs spools "(All)" = none := by
  have heq : update_remaining jobs spools filterSid
      = some (max (spool_size_for spools filterSid
          - (update_totals jobs filterSid).2.1) 0) := by
    unfold update_remaining
    rw [if_neg h]
  refine ⟨heq, ?_, ?_, ?_, ?_⟩
  · intro q hq
    rw [heq] at hq
    rw [← Option.some.inj hq]
    exact le_max_right _ 0
  · intro s hfind
    unfold spool_size_for
    rw [hfind]
  · intro hfind
    unfold spool_size_for
    rw [hfind]
  · unfold update_remaining
    rw [if_pos rfl]

/-- C2 witness: spec example — spool of size 1000, consumed 110,
remaining 890. -/
theorem update_remaining_spec_witness :
    (("SP1" : String) ≠ "(All)")
    ∧ update_remaining
        [⟨"d", "a", "100", "success", "", "SP1"⟩, ⟨"d", "b", "50", "failed", "10", "SP1"⟩]
        [⟨"SP1", "PLA", "", "Black", "", "1000", "", "2024-01-01"⟩]
        "SP1" = some 890 := by
  refine ⟨by decide, ?_⟩
  rw [(update_remaining_spec
    [⟨"d", "a", "100", "success", "", "SP1"⟩, ⟨"d", "b", "50", "failed", "10", "SP1"⟩]
    [⟨"SP1", "PLA", "", "Black", "", "1000", "", "2024-01-01"⟩]
    "SP1" (by decide)).1]
  have hs : spool_size_for [⟨"SP1", "PLA", "", "Black", "", "1000", "", "2024-01-01"⟩]
      "SP1" = 1000 := by
    unfold spool_size_for
    rw [show List.find? (fun s : Spool => s.id = "SP1")
        [⟨"SP1", "PLA", "", "Black", "", "1000", "", "2024-01-01"⟩]
        = some ⟨"SP1", "PLA", "", "Black", "", "1000", "", "2024-01-01"⟩ from by decide]
    decide
  have hc : (update_totals
      [⟨"d", "a", "100", "success", "", "SP1"⟩, ⟨"d", "b", "50", "failed", "10", "SP1"⟩]
      "SP1").2.1 = 110 := by
    show (List.foldl _ (0, 0, 0) _).2.1 = 110
    rw [update_totals_foldl_aux]
    have h1 : safe_float "100" = 100 := by decide
    have h3 : safe_float "10" = 10 := by decide
    have hs1 : jobStatus ⟨"d", "a", "100", "success", "", "SP1"⟩ = "success" := by decide
    have hs2 : jobStatus ⟨"d", "b", "50", "failed", "10", "SP1"⟩ = "failed" := by decide
    have hp1 : passes "SP1" ⟨"d", "a", "100", "success", "", "SP1"⟩ = true := by decide
    have hp2 : passes "SP1" ⟨"d", "b", "50", "failed", "10", "SP1"⟩ = true := by decide
    simp [List.filter_cons, hp1, hp2, specConsumedContrib, hs1, hs2, h1, h3]
    norm_num
  rw [hs, hc]
  norm_num

/-- C10: the aggregator coerces only unparsable strings to zero and uses
any parsed number as-is, so a job whose potential is `"-5"` drives
`total_potential` strictly negative. -/
theorem update_totals_negative_possible :
    safe_float "-5" = -5
    ∧ update_totals [⟨"2024-01-01", "job", "-5", "init", "", ""⟩] "(All)" = (-5, 0, 0)
    ∧ (update_totals [⟨"2024-01-01", "job", "-5", "init", "", ""⟩] "(All)").1 < 0 := by
  have h5 : safe_float "-5" = -5 := by decide
  have hst : jobStatus ⟨"2024-01-01", "job", "-5", "init", "", ""⟩ = "init" := by decide
  have h2 : update_totals [⟨"2024-01-01", "job", "-5", "init", "", ""⟩] "(All)"
      = (-5, 0, 0) := by
    show List.foldl _ (0, 0, 0) _ = _
    rw [update_totals_foldl_aux]
    have hp : passes "(All)" ⟨"2024-01-01", "job", "-5", "init", "", ""⟩ = true := rfl
    simp [List.filter_cons, hp, specConsumedContrib, specLostContrib, hst, h5]
  exact ⟨h5, h2, by rw [h2]; norm_num⟩

/-- C3: the function `gen_spool_id` collects exactly the ids starting with today's
`SP-<YYYYMMDD>-` text whose substring after the last `'-'` is all
digits, parsed as numbers; it returns that text followed by the maximum
found number plus one, zero-padded to 4 digits, or followed by `"0001"`
when no id matches; and ids not bearing today's date text never
influence the result. -/
theorem gen_spool_id_algorithm (today : String) (ids : List String) :
    (∀ n : Nat, n ∈ collectNums ("SP-" ++ today ++ "-") ids ↔
      ∃ sid ∈ ids, pyStartsWith sid ("SP-" ++ today ++ "-") = true
        ∧ pyIsDigit (lastTail sid) = true ∧ n = parseNat (lastTail sid).data)
    ∧ (collectNums ("SP-" ++ today ++ "-") ids = [] →
        gen_spool_id today ids = "SP-" ++ today ++ "-" ++ "0001")
    ∧ (collectNums ("SP-" ++ today ++ "-") ids ≠ [] →
        gen_spool_id today ids
          = "SP-" ++ today ++ "-"
            ++ pad4 ((collectNums ("SP-" ++ today ++ "-") ids).foldl Nat.max 0 + 1))
    ∧ gen_spool_id today (ids.filter (fun sid => pyStartsWith sid ("SP-" ++ today ++ "-")))
        = gen_spool_id today ids := by
  refine ⟨?_, ?_, ?_, ?_⟩
  · intro n
    unfold collectNums
    rw [List.mem_filterMap]
    constructor
    · rintro ⟨sid, hm, hf⟩
      by_cases h1 : pyStartsWith sid ("SP-" ++ today ++ "-") = true
      · rw [if_pos h1] at hf
        by_cases h2 : pyIsDigit (lastTail sid) = true
        · rw [if_pos h2] at hf
          exact ⟨sid, hm, h1, h2, (Option.some.inj hf).symm⟩
        · rw [if_neg h2] at hf; cases hf
      · rw [if_neg h1] at hf; cases hf
    · rintro ⟨sid, hm, h1, h2, rfl⟩
      exact ⟨sid, hm, by rw [if_pos h1, if_pos h2]⟩
  · intro h
    show "SP-" ++ today ++ "-" ++ pad4 (nextNum (collectNums ("SP-" ++ today ++ "-") ids))
      = "SP-" ++ today ++ "-" ++ "0001"
    rw [h]
    rfl
  · intro h
    show "SP-" ++ today ++ "-" ++ pad4 (nextNum (collectNums ("SP-" ++ today ++ "-") ids))
      = _
    cases hn : collectNums ("SP-" ++ today ++ "-") ids with
    | nil => exact absurd hn h
    | cons a t => rfl
  · show "SP-" ++ today ++ "-"
        ++ pad4 (nextNum (collectNums ("SP-" ++ today ++ "-")
             (ids.filter (fun sid => pyStartsWith sid ("SP-" ++ today ++ "-")))))
      = "SP-" ++ today ++ "-" ++ pad4 (nextNum (collectNums ("SP-" ++ today ++ "-") ids))
    rw [collectNums_filter_startsWith]

/-- C3 witness: on the spec's example (`today = 2024-01-01`) the
collected numbers are non-empty and the generated id is
`SP-20240101-0004`. -/
theorem gen_spool_id_algorithm_witness :
    collectNums ("SP-" ++ "20240101" ++ "-") ["SP-20240101-0001", "SP-20240101-0003"] ≠ []
    ∧ gen_spool_id "20240101" ["SP-20240101-0001", "SP-20240101-0003"]
        = "SP-20240101-0004" :=
  ⟨by decide,
   ((gen_spool_id_algorithm "20240101" ["SP-20240101-0001", "SP-20240101-0003"]).2.2.1
      (by decide)).trans (by decide)⟩

/-- C4: the generated id is never an element of `existing_ids`, and its
date segment (second dash-separated component) is today's `YYYYMMDD`
date. -/
theorem gen_spool_id_fresh (today : String) (ids : List String)
    (htoday : ∀ c ∈ today.data, c.isDigit = true) :
    gen_spool_id today ids ∉ ids
    ∧ (pySplitDash (gen_spool_id today ids)).getD 1 "" = today := by
  refine ⟨gen_spool_id_not_mem_core today ids, ?_⟩
  have hnd : ∀ c ∈ today.data, c ≠ '-' := fun c hc => digit_ne_dash (htoday c hc)
  have hdata : (gen_spool_id today ids).data
      = ['S', 'P'] ++ '-' :: (today.data ++ '-'
          :: (pad4 (nextNum (collectNums ("SP-" ++ today ++ "-") ids))).data) := by
    show ("SP-" ++ today ++ "-"
        ++ pad4 (nextNum (collectNums ("SP-" ++ today ++ "-") ids))).data = _
    simp [String.data_append]
  unfold pySplitDash
  rw [hdata, splitDashList_no_dash_append (by decide),
    splitDashList_no_dash_append hnd,
    splitDashList_no_dash (pad4_no_dash _)]
  rfl

/-- C4 witness: at `today = "20240101"` (all digits) with one existing
id, the generated id is fresh. -/
theorem gen_spool_id_fresh_witness :
    (∀ c ∈ ("20240101" : String).data, c.isDigit = true)
    ∧ gen_spool_id "20240101" ["SP-20240101-0001"] ∉ ["SP-20240101-0001"] :=
  ⟨by decide, (gen_spool_id_fresh "20240101" ["SP-20240101-0001"] (by decide)).1⟩

/-- C9: when every collected numeric suffix is at most `9998` the
generated id's suffix is exactly 4 digits; when some collected suffix is
at least `9999` the suffix is the decimal form of `max + 1`, longer than
4 characters, and the id is still absent from `existing_ids`. -/
theorem gen_spool_id_suffix_growth (today : String) (ids : List String) :
    ((∀ n ∈ collectNums ("SP-" ++ today ++ "-") ids, n ≤ 9998) →
      (lastTail (gen_spool_id today ids)).data.length = 4
      ∧ pyIsDigit (lastTail (gen_spool_id today ids)) = true)
    ∧ ((∃ n ∈ collectNums ("SP-" ++ today ++ "-") ids, 9999 ≤ n) →
      4 < (lastTail (gen_spool_id today ids)).data.length
      ∧ lastTail (gen_spool_id today ids)
          = ⟨natStr ((collectNums ("SP-" ++ today ++ "-") ids).foldl Nat.max 0 + 1)⟩
      ∧ gen_spool_id today ids ∉ ids) := by
  have htail : lastTail (gen_spool_id today ids)
      = pad4 (nextNum (collectNums ("SP-" ++ today ++ "-") ids)) :=
    lastTail_gen today _
  constructor
  · intro hsmall
    have hnext : nextNum (collectNums ("SP-" ++ today ++ "-") ids) < 10000 := by
      cases hn : collectNums ("SP-" ++ today ++ "-") ids with
      | nil => show nextNum [] < 10000; decide
      | cons a t =>
        have hb : (a :: t).foldl Nat.max 0 ≤ 9998 := by
          apply foldl_max_le
          · intro x hx
            exact hsmall x (by rw [hn]; exact hx)
          · omega
        show nextNum (a :: t) < 10000
        show (a :: t).foldl Nat.max 0 + 1 < 10000
        omega
    rw [htail]
    exact ⟨pad4_length_small hnext, pyIsDigit_pad4 _⟩
  · rintro ⟨n, hmem, hge⟩
    have hmax : 9999 ≤ (collectNums ("SP-" ++ today ++ "-") ids).foldl Nat.max 0 :=
      le_trans hge (le_foldl_max hmem 0)
    have hnil : collectNums ("SP-" ++ today ++ "-") ids ≠ [] := by
      intro h; rw [h] at hmem; exact absurd hmem (List.not_mem_nil n)
    have hnext : nextNum (collectNums ("SP-" ++ today ++ "-") ids)
        = (collectNums ("SP-" ++ today ++ "-") ids).foldl Nat.max 0 + 1 := by
      cases hn : collectNums ("SP-" ++ today ++ "-") ids with
      | nil => exact absurd hn hnil
      | cons a t => rfl
    have hbig : 10000 ≤ nextNum (collectNums ("SP-" ++ today ++ "-") ids) := by
      rw [hnext]; omega
    have hpad := pad4_eq_natStr_of_large hbig
    refine ⟨?_, ?_, gen_spool_id_not_mem_core today ids⟩
    · rw [htail, hpad]
      have := natStr_length_ge_five hbig
      omega
    · rw [htail]
      have : (pad4 (nextNum (collectNums ("SP-" ++ today ++ "-") ids)) : String)
          = ⟨natStr (nextNum (collectNums ("SP-" ++ today ++ "-") ids))⟩ :=
        congrArg (fun l => (⟨l⟩ : String)) hpad
      rw [this, hnext]

/-- C9 witness: with an existing suffix `9999`, the generated suffix is
`10000` (5 digits) and the id is still fresh. -/
theorem gen_spool_id_suffix_growth_witness :
    (∃ n ∈ collectNums ("SP-" ++ "20240101" ++ "-") ["SP-20240101-9999"], 9999 ≤ n)
    ∧ (4 < (lastTail (gen_spool_id "20240101" ["SP-20240101-9999"])).data.length
      ∧ lastTail (gen_spool_id "20240101" ["SP-20240101-9999"])
          = ⟨natStr ((collectNums ("SP-" ++ "20240101" ++ "-")
              ["SP-20240101-9999"]).foldl Nat.max 0 + 1)⟩
      ∧ gen_spool_id "20240101" ["SP-20240101-9999"] ∉ ["SP-20240101-9999"]) :=
  ⟨by decide,
   (gen_spool_id_suffix_growth "20240101" ["SP-20240101-9999"]).2 (by decide)⟩

/-- C5: the handler `JobDialog.ok` evaluates its rules in source order with the
first failure winning (date and name required; potential, if non-empty,
numeric; status recognized; lost grams required and numeric when status
is `failed`, otherwise numeric-or-blank); any failure yields the
field-specific error and no record; on success the record stores lost
grams unchanged when status is `failed` and `""` otherwise. -/
theorem jobOk_spec (date name potential status lost spool : String) :
    ((jobOk date name potential status lost spool).isOk = true ↔
      ((pyStrip date ≠ "" ∧ pyStrip name ≠ "")
       ∧ (pyStrip potential = "" ∨ is_float (pyStrip potential) = true)
       ∧ STATUSES.contains (pyLower (pyStrip status)) = true
       ∧ (if pyLower (pyStrip status) = "failed"
          then pyStrip lost ≠ "" ∧ is_float (pyStrip lost) = true
          else (pyStrip lost = "" ∨ is_float (pyStrip lost) = true))))
    ∧ ((pyStrip date = "" ∨ pyStrip name = "") →
        jobOk date name potential status lost spool = .error .missingFields)
    ∧ ((pyStrip date ≠ "" ∧ pyStrip name ≠ "") →
        (pyStrip potential ≠ "" ∧ is_float (pyStrip potential) = false) →
        jobOk date name potential status lost spool = .error .badPotential)
    ∧ ((pyStrip date ≠ "" ∧ pyStrip name ≠ "") →
        (pyStrip potential = "" ∨ is_float (pyStrip potential) = true) →
        STATUSES.contains (pyLower (pyStrip status)) = false →
        jobOk date name potential status lost spool = .error .badStatus)
    ∧ ((pyStrip date ≠ "" ∧ pyStrip name ≠ "") →
        (pyStrip potential = "" ∨ is_float (pyStrip potential) = true) →
        STATUSES.contains (pyLower (pyStrip status)) = true →
        pyLower (pyStrip status) = "failed" →
        (pyStrip lost = "" ∨ is_float (pyStrip lost) = false) →
        jobOk date name potential status lost spool = .error .missingLost)
    ∧ ((pyStrip date ≠ "" ∧ pyStrip name ≠ "") →
        (pyStrip potential = "" ∨ is_float (pyStrip potential) = true) →
        STATUSES.contains (pyLower (pyStrip status)) = true →
        pyLower (pyStrip status) ≠ "failed" →
        (pyStrip lost ≠ "" ∧ is_float (pyStrip lost) = false) →
        jobOk date name potential status lost spool = .error .badLost)
    ∧ ((pyStrip date ≠ "" ∧ pyStrip name ≠ "") →
        (pyStrip potential = "" ∨ is_float (pyStrip potential) = true) →
        STATUSES.contains (pyLower (pyStrip status)) = true →
        (if pyLower (pyStrip status) = "failed"
          then pyStrip lost ≠ "" ∧ is_float (pyStrip lost) = true
          else (pyStrip lost = "" ∨ is_float (pyStrip lost) = true)) →
        jobOk date name potential status lost spool
          = .ok ⟨pyStrip date, pyStrip name, pyStrip potential,
              pyLower (pyStrip status),
              (if pyLower (pyStrip status) = "failed" then pyStrip lost else ""),
              pyStrip spool⟩) := by
  by_cases hb1 : (pyStrip date = "" || pyStrip name = "") = true
  · have e : jobOk date name potential status lost spool = .error .missingFields := by
      unfold jobOk
      rw [if_pos hb1]
    have h1 : pyStrip date = "" ∨ pyStrip name = "" := by simpa using hb1
    refine ⟨?_, fun _ => e, ?_, ?_, ?_, ?_, ?_⟩
    · rw [e]
      constructor
      · intro h; exact absurd h (by decide)
      · rintro ⟨⟨hd, hn⟩, -⟩; tauto
    · intro hr1 _; tauto
    · intro hr1 _ _; tauto
    · intro hr1 _ _ _ _; tauto
    · intro hr1 _ _ _ _; tauto
    · intro hr1 _ _ _; tauto
  · have r1 : pyStrip date ≠ "" ∧ pyStrip name ≠ "" := by
      constructor <;> intro h <;> exact hb1 (by simp [h])
    by_cases hb2 : (pyStrip potential ≠ "" && !is_float (pyStrip potential)) = true
    · have e : jobOk date name potential status lost spool = .error .badPotential := by
        unfold jobOk
        rw [if_neg hb1, if_pos hb2]
      have h2 : pyStrip potential ≠ "" ∧ is_float (pyStrip potential) = false := by
        simpa using hb2
      refine ⟨?_, ?_, fun _ _ => e, ?_, ?_, ?_, ?_⟩
      · rw [e]
        constructor
        · intro h; exact absurd h (by decide)
        · rintro ⟨-, hr2, -⟩
          rcases hr2 with h | h
          · exact absurd h h2.1
          · rw [h2.2] at h; cases h
      · intro h; tauto
      · intro _ hr2 _
        rcases hr2 with h | h
        · exact absurd h h2.1
        · rw [h2.2] at h; cases h
      · intro _ hr2 _ _ _
        rcases hr2 with h | h
        · exact absurd h h2.1
        · rw [h2.2] at h; cases h
      · intro _ hr2 _ _ _
        rcases hr2 with h | h
        · exact absurd h h2.1
        · rw [h2.2] at h; cases h
      · intro _ hr2 _ _
        rcases hr2 with h | h
        · exact absurd h h2.1
        · rw [h2.2] at h; cases h
    · have r2 : pyStrip potential = "" ∨ is_float (pyStrip potential) = true := by
        by_cases hp : pyStrip potential = ""
        · exact Or.inl hp
        · rcases Bool.eq_false_or_eq_true (is_float (pyStrip potential)) with ht | hf
          · exact Or.inr ht
          · exact absurd (by simp [hp, hf]) hb2
      by_cases hb3 : (!STATUSES.contains (pyLower (pyStrip status))) = true
      · have e : jobOk date name potential status lost spool = .error .badStatus := by
          unfold jobOk
          rw [if_neg hb1, if_neg hb2, if_pos hb3]
        have h3 : STATUSES.contains (pyLower (pyStrip status)) = false := by
          simpa using hb3
        refine ⟨?_, ?_, ?_, fun _ _ _ => e, ?_, ?_, ?_⟩
        · rw [e]
          constructor
          · intro h; exact absurd h (by decide)
          · rintro ⟨-, -, hr3, -⟩
            rw [h3] at hr3; cases hr3
        · intro h; tauto
        · intro _ h
          rcases r2 with hr | hr
          · exact absurd hr h.1
          · rw [h.2] at hr; cases hr
        · intro _ _ hr3 _ _; rw [h3] at hr3; cases hr3
        · intro _ _ hr3 _ _; rw [h3] at hr3; cases hr3
        · intro _ _ hr3 _; rw [h3] at hr3; cases hr3
      · have r3 : STATUSES.contains (pyLower (pyStrip status)) = true := by
          rcases Bool.eq_false_or_eq_true
            (STATUSES.contains (pyLower (pyStrip status))) with ht | hf
          · exact ht
          · exact absurd (by rw [hf]; rfl) hb3
        by_cases hst : pyLower (pyStrip status) = "failed"
        · by_cases hb4 : (pyStrip lost = "" || !is_float (pyStrip lost)) = true
          · have e : jobOk date name potential status lost spool
                = .error .missingLost := by
              unfold jobOk
              rw [if_neg hb1, if_neg hb2, if_neg hb3, if_pos hst, if_pos hb4]
            have h4 : pyStrip lost = "" ∨ is_float (pyStrip lost) = false := by
              simpa using hb4
            refine ⟨?_, ?_, ?_, ?_, fun _ _ _ _ _ => e, ?_, ?_⟩
            · rw [e]
              constructor
              · intro h; exact absurd h (by decide)
              · rintro ⟨-, -, -, hr4⟩
                rw [if_pos hst] at hr4
                rcases h4 with h | h
                · exact absurd h hr4.1
                · rw [h] at hr4; cases hr4.2
            · intro h; tauto
            · intro _ h
              rcases r2 with hr | hr
              · exact absurd hr h.1
              · rw [h.2] at hr; cases hr
            · intro _ _ hr3; rw [r3] at hr3; cases hr3
            · intro _ _ _ hne _; exact absurd hst hne
            · intro _ _ _ hr4
              rw [if_pos hst] at hr4
              rcases h4 with h | h
              · exact absurd h hr4.1
              · rw [h] at hr4; cases hr4.2
          · have r4 : pyStrip lost ≠ "" ∧ is_float (pyStrip lost) = true := by
              constructor
              · intro h; exact hb4 (by simp [h])
              · rcases Bool.eq_false_or_eq_true (is_float (pyStrip lost)) with ht | hf
                · exact ht
                · exact absurd (by simp [hf]) hb4
            have e : jobOk date name potential status lost spool
                = .ok ⟨pyStrip date, pyStrip name, pyStrip potential,
                    pyLower (pyStrip status), pyStrip lost, pyStrip spool⟩ := by
              unfold jobOk
              rw [if_neg hb1, if_neg hb2, if_neg hb3, if_pos hst, if_neg hb4]
            refine ⟨?_, ?_, ?_, ?_, ?_, ?_, ?_⟩
            · rw [e]
              constructor
              · intro _
                exact ⟨r1, r2, r3, by rw [if_pos hst]; exact r4⟩
              · intro _; rfl
            · intro h; tauto
            · intro _ h
              rcases r2 with hr | hr
              · exact absurd hr h.1
              · rw [h.2] at hr; cases hr
            · intro _ _ hr3; rw [r3] at hr3; cases hr3
            · intro _ _ _ _ h4
              rcases h4 with h | h
              · exact absurd h r4.1
              · rw [r4.2] at h; cases h
            · intro _ _ _ hne; exact absurd hst hne
            · intro _ _ _ _
              rw [e, if_pos hst]
        · by_cases hb5 : (pyStrip lost ≠ "" && !is_float (pyStrip lost)) = true
          · have e : jobOk date name potential status lost spool
                = .error .badLost := by
              unfold jobOk
              rw [if_neg hb1, if_neg hb2, if_neg hb3, if_neg hst, if_pos hb5]
            have h5 : pyStrip lost ≠ "" ∧ is_float (pyStrip lost) = false := by
              simpa using hb5
            refine ⟨?_, ?_, ?_, ?_, ?_, fun _ _ _ _ _ => e, ?_⟩
            · rw [e]
              constructor
              · intro h; exact absurd h (by decide)
              · rintro ⟨-, -, -, hr4⟩
                rw [if_neg hst] at hr4
                rcases hr4 with h | h
                · exact absurd h h5.1
                · rw [h5.2] at h; cases h
            · intro h; tauto
            · intro _ h
              rcases r2 with hr | hr
              · exact absurd hr h.1
              · rw [h.2] at hr; cases hr
            · intro _ _ hr3; rw [r3] at hr3; cases hr3
            · intro _ _ _ hfail _; exact absurd hfail hst
            · intro _ _ _ hr4
              rw [if_neg hst] at hr4
              rcases hr4 with h | h
              · exact absurd h h5.1
              · rw [h5.2] at h; cases h
          · have r5 : pyStrip lost = "" ∨ is_float (pyStrip lost) = true := by
              by_cases hl : pyStrip lost = ""
              · exact Or.inl hl
              · rcases Bool.eq_false_or_eq_true (is_float (pyStrip lost)) with ht | hf
                · exact Or.inr ht
                · exact absurd (by simp [hl, hf]) hb5
            have e : jobOk date name potential status lost spool
                = .ok ⟨pyStrip date, pyStrip name, pyStrip potential,
                    pyLower (pyStrip status), "", pyStrip spool⟩ := by
              unfold jobOk
              rw [if_neg hb1, if_neg hb2, if_neg hb3, if_neg hst, if_neg hb5]
            refine ⟨?_, ?_, ?_, ?_, ?_, ?_, ?_⟩
            · rw [e]
              constructor
              · intro _
                exact ⟨r1, r2, r3, by rw [if_neg hst]; exact r5⟩
              · intro _; rfl
            · intro h; tauto
            · intro _ h
              rcases r2 with hr | hr
              · exact absurd hr h.1
              · rw [h.2] at hr; cases hr
            · intro _ _ hr3; rw [r3] at hr3; cases hr3
            · intro _ _ _ hfail _; exact absurd hfail hst
            · intro _ _ _ _ h5
              rcases r5 with h | h
              · exact absurd h h5.1
              · rw [h5.2] at h; cases h
            · intro _ _ _ _
              rw [e, if_neg hst]

/-- C5 witness: the spec's example — a `failed` job with lost grams `"5"`
passes all four rules and is committed with the lost grams stored
unchanged; its `""` lost-grams variant fails rule 4. -/
theorem jobOk_spec_witness :
    ((pyStrip "2024-01-01" ≠ "" ∧ pyStrip "print" ≠ "")
      ∧ (pyStrip "100" = "" ∨ is_float (pyStrip "100") = true)
      ∧ STATUSES.contains (pyLower (pyStrip "failed")) = true
      ∧ (if pyLower (pyStrip "failed") = "failed"
          then pyStrip "5" ≠ "" ∧ is_float (pyStrip "5") = true
          else (pyStrip "5" = "" ∨ is_float (pyStrip "5") = true)))
    ∧ jobOk "2024-01-01" "print" "100" "failed" "5" ""
        = .ok ⟨pyStrip "2024-01-01", pyStrip "print", pyStrip "100",
            pyLower (pyStrip "failed"),
            (if pyLower (pyStrip "failed") = "failed" then pyStrip "5" else ""),
            pyStrip ""⟩
    ∧ (pyStrip "" = "" ∨ is_float (pyStrip "") = false)
    ∧ jobOk "2024-01-01" "print" "100" "failed" "" ""
        = .error .missingLost := by
  refine ⟨⟨by decide, by decide, by decide, by decide⟩, ?_, Or.inl (by decide), ?_⟩
  · exact (jobOk_spec "2024-01-01" "print" "100" "failed" "5" "").2.2.2.2.2.2
      (by decide) (by decide) (by decide) (by decide)
  · exact (jobOk_spec "2024-01-01" "print" "100" "failed" "" "").2.2.2.2.1
      (by decide) (by decide) (by decide) (by decide) (Or.inl (by decide))

/-- C6: the handler `SpoolDialog.ok` rejects a record whose material is `"Other"`
with empty other-material text (likewise for color `"Other"` with empty
other-color); on acceptance the other-material field is persisted as
entered when material is `"Other"` and forced to `""` otherwise, and
likewise for the other-color field. -/
theorem spoolOk_spec (sid mat other_mat col other size notes created : String) :
    (pyStrip mat = "Other" → pyStrip other_mat = "" →
      (spoolOk sid mat other_mat col other size notes created).isOk = false)
    ∧ (pyStrip col = "Other" → pyStrip other = "" →
      (spoolOk sid mat other_mat col other size notes created).isOk = false)
    ∧ (∀ s : Spool, spoolOk sid mat other_mat col other size notes created = .ok s →
        s.otherMaterial = (if pyStrip mat = "Other" then pyStrip other_mat else "")
        ∧ s.otherColor = (if pyStrip col = "Other" then pyStrip other else ""))
    ∧ (pyStrip sid ≠ "" →
        (pyStrip size ≠ "" ∧ is_float (pyStrip size) = true) →
        (pyStrip mat = "Other" → pyStrip other_mat ≠ "") →
        (pyStrip col = "Other" → pyStrip other ≠ "") →
        spoolOk sid mat other_mat col other size notes created
          = .ok ⟨pyStrip sid, pyStrip mat,
              (if pyStrip mat = "Other" then pyStrip other_mat else ""),
              pyStrip col, (if pyStrip col = "Other" then pyStrip other else ""),
              pyStrip size, pyStrip notes, pyStrip created⟩) := by
  refine ⟨?_, ?_, ?_, ?_⟩
  · intro hm ho
    unfold spoolOk
    by_cases h1 : pyStrip sid = ""
    · rw [if_pos h1]; rfl
    · rw [if_neg h1]
      by_cases h2 : (pyStrip size = "" || !is_float (pyStrip size)) = true
      · rw [if_pos h2]; rfl
      · rw [if_neg h2, if_pos (by simp [hm, ho])]; rfl
  · intro hc ho
    unfold spoolOk
    by_cases h1 : pyStrip sid = ""
    · rw [if_pos h1]; rfl
    · rw [if_neg h1]
      by_cases h2 : (pyStrip size = "" || !is_float (pyStrip size)) = true
      · rw [if_pos h2]; rfl
      · rw [if_neg h2]
        by_cases h3 : (pyStrip mat = "Other" && pyStrip other_mat = "") = true
        · rw [if_pos h3]; rfl
        · rw [if_neg h3, if_pos (by simp [hc, ho])]; rfl
  · intro s hs
    unfold spoolOk at hs
    split_ifs at hs with h1 h2 h3 h4 <;>
      first
        | exact Except.noConfusion hs
        | (cases hs; refine ⟨?_, ?_⟩ <;> simp_all)
  · intro h1 h2 h3 h4
    unfold spoolOk
    rw [if_neg h1, if_neg ?_, if_neg ?_, if_neg ?_]
    · intro hc
      rw [Bool.and_eq_true, decide_eq_true_eq, decide_eq_true_eq] at hc
      exact h4 hc.1 hc.2
    · intro hc
      rw [Bool.and_eq_true, decide_eq_true_eq, decide_eq_true_eq] at hc
      exact h3 hc.1 hc.2
    · intro hc
      rw [Bool.or_eq_true, decide_eq_true_eq, Bool.not_eq_true'] at hc
      rcases hc with h | h
      · exact h2.1 h
      · rw [h2.2] at h; cases h

/-- C6 witness: a spool with material `"Other"` and empty other-material
text is rejected; supplying `"Wood PLA"` accepts it, persists the text,
and forces the unused other-color field to `""`. -/
theorem spoolOk_spec_witness :
    (pyStrip "Other" = "Other" ∧ pyStrip "" = ""
      ∧ (spoolOk "S1" "Other" "" "Black" "" "1000" "" "2024-01-01").isOk = false)
    ∧ spoolOk "S1" "Other" "Wood PLA" "Black" "" "1000" "" "2024-01-01"
        = .ok ⟨"S1", "Other", "Wood PLA", "Black", "", "1000", "", "2024-01-01"⟩
    ∧ ((⟨"S1", "Other", "Wood PLA", "Black", "", "1000", "", "2024-01-01"⟩
          : Spool).otherMaterial
        = (if pyStrip "Other" = "Other" then pyStrip "Wood PLA" else "")
      ∧ (⟨"S1", "Other", "Wood PLA", "Black", "", "1000", "", "2024-01-01"⟩
          : Spool).otherColor
        = (if pyStrip "Black" = "Other" then pyStrip "" else "")) := by
  have hok : spoolOk "S1" "Other" "Wood PLA" "Black" "" "1000" "" "2024-01-01"
      = .ok ⟨"S1", "Other", "Wood PLA", "Black", "", "1000", "", "2024-01-01"⟩ := by
    rfl
  exact ⟨⟨by decide, by decide,
      (spoolOk_spec "S1" "Other" "" "Black" "" "1000" "" "2024-01-01").1
        (by decide) (by decide)⟩,
    hok,
    (spoolOk_spec "S1" "Other" "Wood PLA" "Black" "" "1000" "" "2024-01-01").2.2.1
      _ hok⟩

/-! ### CSV lemmas -/

theorem lookup_zip_map_self {α : Type} {h : List String} (hnd : h.Nodup) {c : String}
    (hc : c ∈ h) (g : String → α) (d : α) :
    (((h.zip (h.map g)).filter (fun p => p.1 = c)).getLastD (c, d)).2 = g c := by
  induction h generalizing d with
  | nil => cases hc
  | cons a t ih =>
    rw [List.nodup_cons] at hnd
    by_cases hac : a = c
    · subst hac
      simp only [List.map_cons, List.zip_cons_cons, List.filter_cons]
      rw [if_pos (by simp)]
      have hrest : (t.zip (t.map g)).filter (fun p => p.1 = a) = [] := by
        rw [List.filter_eq_nil_iff]
        intro p hp
        have h1 : p.1 ∈ t := (List.of_mem_zip hp).1
        simp only [decide_eq_true_eq]
        intro heq
        exact hnd.1 (heq ▸ h1)
      rw [List.getLastD_cons, hrest]
      rfl
    · simp only [List.map_cons, List.zip_cons_cons, List.filter_cons]
      rw [if_neg (by simpa using hac)]
      refine ih hnd.2 ?_ d
      rcases List.mem_cons.mp hc with h | h
      · exact absurd h.symm hac
      · exact h

theorem dictLookup_map_self {h : List String} (hnd : h.Nodup) {c : String}
    (hc : c ∈ h) (g : String → Option String) :
    dictLookup h (h.map g) c = g c := by
  unfold dictLookup
  rw [if_pos hc, List.length_map, Nat.sub_self, List.replicate_zero, List.append_nil]
  exact lookup_zip_map_self hnd hc g none

theorem mem_zip_of_mem_left {α β : Type} {a : α} :
    ∀ {l1 : List α} (l2 : List β), a ∈ l1 → l1.length ≤ l2.length →
      ∃ b, (a, b) ∈ l1.zip l2 := by
  intro l1
  induction l1 with
  | nil => intro l2 h; cases h
  | cons x t ih =>
    intro l2 hmem hlen
    cases l2 with
    | nil => simp at hlen
    | cons y t2 =>
      rcases List.mem_cons.mp hmem with rfl | hm
      · exact ⟨y, by rw [List.zip_cons_cons]; exact List.mem_cons_self _ _⟩
      · obtain ⟨b, hb⟩ := ih t2 hm (by simpa using hlen)
        exact ⟨b, by rw [List.zip_cons_cons]; exact List.mem_cons_of_mem _ hb⟩

theorem getLastD_mem_of_ne_nil {α : Type} :
    ∀ {l : List α}, l ≠ [] → ∀ d : α, l.getLastD d ∈ l := by
  intro l
  induction l with
  | nil => intro h; exact absurd rfl h
  | cons a t ih =>
    intro _ d
    rw [List.getLastD_cons]
    by_cases ht : t = []
    · subst ht; simp
    · exact List.mem_cons_of_mem a (ih ht a)

/-- On a data row at least as long as the header, every record value of
the first load is a string (never the `None` restval). -/
theorem dictLookup_row_isSome {h row : List String} (hlen : h.length ≤ row.length)
    (c : String) : (dictLookup h (row.map some) c).isSome = true := by
  unfold dictLookup
  by_cases hc : c ∈ h
  · rw [if_pos hc]
    have hpad : h.length - (row.map some).length = 0 := by
      rw [List.length_map]; omega
    rw [hpad, List.replicate_zero, List.append_nil]
    obtain ⟨b, hb⟩ := mem_zip_of_mem_left (row.map some) hc
      (by rw [List.length_map]; exact hlen)
    have hfmem : (c, b) ∈ (h.zip (row.map some)).filter (fun p => p.1 = c) :=
      List.mem_filter.mpr ⟨hb, by simp⟩
    have hne : (h.zip (row.map some)).filter (fun p => p.1 = c) ≠ [] := by
      intro h0
      rw [h0] at hfmem
      exact List.not_mem_nil _ hfmem
    have hmem := getLastD_mem_of_ne_nil hne (c, none)
    have hzip := (List.mem_filter.mp hmem).1
    have h2 := (List.of_mem_zip hzip).2
    have hall : ∀ v ∈ row.map some, Option.isSome v = true := by
      intro v hv
      rw [List.mem_map] at hv
      obtain ⟨s, -, hs⟩ := hv
      rw [← hs]
      rfl
    exact hall _ h2
  · rw [if_neg hc]
    rfl

/-- Core of the round-trip: when every data row covers the header (so no
field is the `None` restval), load-save-load is the identity on the
loaded records. -/
theorem read_write_read_of_complete (schema : List String) (hnd : schema.Nodup)
    (g : CsvFile) (hlen : ∀ row ∈ g.rows, g.header.length ≤ row.length) :
    read_rows schema (write_rows schema (read_rows schema g)) = read_rows schema g := by
  unfold read_rows write_rows
  simp only [List.map_map]
  apply List.map_congr_left
  intro row hrow
  simp only [Function.comp]
  apply List.map_congr_left
  intro c hc
  rw [List.map_map]
  rw [show (some ∘ fun c' =>
      (dictLookup schema (schema.map (fun c'' =>
        dictLookup g.header (row.map some) c'')) c').getD "")
    = fun c' => some ((dictLookup schema (schema.map (fun c'' =>
        dictLookup g.header (row.map some) c'')) c').getD "") from rfl]
  rw [dictLookup_map_self hnd hc, dictLookup_map_self hnd hc]
  obtain ⟨s, hs⟩ := Option.isSome_iff_exists.mp
    (dictLookup_row_isSome (hlen row hrow) c)
  rw [hs]
  rfl

/-- C8 counterexample: the claim as stated is false on the code. A jobs
file with the full header and the short data row
`["2024-01-01", "foo"]` loads to a record holding the `None` restval in
the uncovered columns, but saving writes those cells as `""` and
reloading yields the string `""` there, so the reloaded records differ
from the first load. -/
theorem read_rows_write_rows_counterexample :
    read_rows JOB_COLS (write_rows JOB_COLS
        (read_rows JOB_COLS ⟨JOB_COLS, [["2024-01-01", "foo"]]⟩))
      ≠ read_rows JOB_COLS ⟨JOB_COLS, [["2024-01-01", "foo"]]⟩ := by
  decide

/-- C8 (amended): for a duplicate-free schema, loading a file whose data
rows are no shorter than its header, saving the records back and
loading again yields exactly the records of the first load; for an
arbitrary file the records stabilize after one save-then-load cycle —
a second cycle yields exactly the records of the first cycle. -/
theorem read_write_roundtrip_amended (schema : List String) (hnd : schema.Nodup)
    (f : CsvFile) :
    ((∀ row ∈ f.rows, f.header.length ≤ row.length) →
      read_rows schema (write_rows schema (read_rows schema f)) = read_rows schema f)
    ∧ read_rows schema (write_rows schema (read_rows schema (write_rows schema
        (read_rows schema f))))
      = read_rows schema (write_rows schema (read_rows schema f)) := by
  constructor
  · intro hlen
    exact read_write_read_of_complete schema hnd f hlen
  · apply read_write_read_of_complete schema hnd
    intro row hrow
    unfold write_rows at hrow ⊢
    simp only [List.mem_map] at hrow
    obtain ⟨rec, -, hrec⟩ := hrow
    rw [← hrec]
    simp

/-- C8 witness: the complete-row identity at a concrete one-column file
under the (duplicate-free) jobs schema. -/
theorem read_write_roundtrip_amended_witness :
    JOB_COLS.Nodup
    ∧ (∀ row ∈ (⟨["Date"], [["x"]]⟩ : CsvFile).rows,
        (⟨["Date"], [["x"]]⟩ : CsvFile).header.length ≤ row.length)
    ∧ read_rows JOB_COLS (write_rows JOB_COLS
        (read_rows JOB_COLS ⟨["Date"], [["x"]]⟩))
      = read_rows JOB_COLS ⟨["Date"], [["x"]]⟩ :=
  ⟨by decide, by decide,
   (read_write_roundtrip_amended JOB_COLS (by decide) ⟨["Date"], [["x"]]⟩).1 (by decide)⟩

end FilamentTracker
